import Mathlib

/-!
Verification development for `media_checker.py`, a video-integrity scanner.

The Python source is shallowly embedded below:
* pure helpers (`checkPoints`, `framesToCheck`) become Lean functions on `ℕ`
  (Python's exact integers, all values here non-negative);
* the decode backend (`cv2.VideoCapture`) is an explicit `Backend` record of
  the observable behaviours the probe consumes (open outcome, frame count,
  per-frame read outcome, per-call exceptions);
* file contents are `List Char`; the flat-file store is a partial map from
  file name to content;
* `os.walk` is an external primitive, modelled as a function from a directory
  path to its yielded `(dirpath, filenames)` pairs.
-/

namespace MediaChecker

/-- Python `range(a, b)`: the ascending list `[a, a+1, ..., b-1]`, empty when
`b ≤ a`.  (`b - a` is ℕ-subtraction, hence `0` in the empty case.) -/
def pyRange (a b : Nat) : List Nat := List.range' a (b - a)

/-- Source line 48-50:
`check_points = [int(total_frames * (i/20)) for i in range(0, 20)]`,
then `list(set(check_points))` and `.sort()`.  The source computes
`int(total_frames * (i/20))` in floating point; it is modelled with exact
integer arithmetic as `⌊totalFrames * i / 20⌋`, which is the value the
expression denotes with real arithmetic.  `list(set(_))` followed by
`.sort()` yields the ascending enumeration of the distinct values, modelled
by `dedup` followed by `insertionSort`. -/
def checkPoints (totalFrames : Nat) : List Nat :=
  (((List.range 20).map (fun i => totalFrames * i / 20)).dedup).insertionSort (· ≤ ·)

/-- Source lines 57-63: the frame window attempted around one checkpoint.
Python's `max(0, total_frames-5)` and `max(0, point-2)` are ℕ-subtraction
here (truncated at 0). -/
def framesToCheck (totalFrames point : Nat) : List Nat :=
  if point = 0 then pyRange 0 (min 5 totalFrames)
  else if point = totalFrames - 1 then pyRange (totalFrames - 5) totalFrames
  else pyRange (point - 2) (min (point + 3) totalFrames)

theorem mem_pyRange {a b x : Nat} : x ∈ pyRange a b ↔ a ≤ x ∧ x < b := by
  unfold pyRange
  rw [List.mem_range']
  constructor
  · rintro ⟨i, hi, rfl⟩; omega
  · rintro ⟨h1, h2⟩; exact ⟨x - a, by omega, by omega⟩

theorem checkPoints_sorted (n : Nat) : (checkPoints n).Sorted (· < ·) := by
  have hs : (checkPoints n).Sorted (· ≤ ·) := List.sorted_insertionSort _ _
  have hnd : (checkPoints n).Nodup :=
    (List.perm_insertionSort _ _).nodup_iff.mpr (List.nodup_dedup _)
  exact hs.lt_of_le hnd

theorem checkPoints_nodup (n : Nat) : (checkPoints n).Nodup :=
  (List.perm_insertionSort _ _).nodup_iff.mpr (List.nodup_dedup _)

theorem mem_checkPoints {n x : Nat} :
    x ∈ checkPoints n ↔ ∃ i, i < 20 ∧ x = n * i / 20 := by
  unfold checkPoints
  rw [(List.perm_insertionSort _ _).mem_iff, List.mem_dedup, List.mem_map]
  constructor
  · rintro ⟨i, hi, rfl⟩; exact ⟨i, List.mem_range.mp hi, rfl⟩
  · rintro ⟨i, hi, rfl⟩; exact ⟨i, List.mem_range.mpr hi, rfl⟩

theorem checkPoints_lt {n x : Nat} (hn : 0 < n) (hx : x ∈ checkPoints n) : x < n := by
  obtain ⟨i, hi, rfl⟩ := mem_checkPoints.mp hx
  have h19 : n * i ≤ n * 19 := Nat.mul_le_mul_left n (by omega)
  have : n * i / 20 ≤ n * 19 / 20 := Nat.div_le_div_right h19
  have hlt : n * 19 / 20 < n := by
    rw [Nat.div_lt_iff_lt_mul (by norm_num : 0 < 20)]
    omega
  omega

/-- Observable behaviour of the decode backend (`cv2`) for one file, as
consumed by `analyze_video`:
* `openRaises`: the `cv2.VideoCapture(video_path)` call itself raises;
* `isOpened`: value of `cap.isOpened()` once the constructor returned;
* `frameCount`: value of `int(cap.get(cv2.CAP_PROP_FRAME_COUNT))`;
* `readOk f`: whether, after seeking to frame `f`, `cap.read()` returns
  `ret` true with a non-`None`, non-empty frame;
* `readExc f`: `some msg` when the seek/read at frame `f` raises an
  exception whose `str` is `msg` (seek and read collapsed into one call
  site, as the source treats them identically). -/
structure Backend where
  openRaises : Bool
  isOpened : Bool
  frameCount : Int
  readOk : Nat → Bool
  readExc : Nat → Option String

/-- Step-log text of one grab attempt, source line 71:
`f"[第{i+1}次]尝试抓取第{frame_idx}帧"`. -/
def attemptLabel (i f : Nat) : String :=
  "[第" ++ toString (i + 1) ++ "次]尝试抓取第" ++ toString f ++ "帧"

/-- Result of scanning one checkpoint's frame window (source lines 66-77):
either some frame succeeded, or the whole window was exhausted, or a backend
call raised.  Carries the step log and the ghost list of frame indices whose
seek/read was actually attempted. -/
inductive WinRes where
  | success (log : List String) (att : List Nat)
  | exhausted (log : List String) (att : List Nat)
  | raised (msg : String) (log : List String) (att : List Nat)
deriving DecidableEq

/-- Source lines 66-77: attempt each frame of the window in order; log each
attempt; stop at the first success.  An exception from the backend aborts the
window before the attempt line is logged (the `step_log.append` follows the
`cap.read()` call in the source). -/
def checkWindow (b : Backend) (i : Nat) (frames : List Nat)
    (log : List String) (att : List Nat) : WinRes :=
  match frames with
  | [] => .exhausted log att
  | f :: rest =>
    match b.readExc f with
    | some msg => .raised msg log (att ++ [f])
    | none =>
      if b.readOk f then .success (log ++ [attemptLabel i f ++ "：成功"]) (att ++ [f])
      else checkWindow b i rest (log ++ [attemptLabel i f ++ "：失败"]) (att ++ [f])

/-- Outcome of `analyze_video`: a normal return `(error_type, step_log)`
(with the ghost data of whether the handle was released and which frames
were attempted), or a propagated Python exception. -/
inductive POutcome where
  | ret (errorType : Nat) (stepLog : List String) (released : Bool) (att : List Nat)
  | exc (excName : String) (att : List Nat)
deriving DecidableEq

/-- Source lines 53-83: the loop over the (enumerated) checkpoints.  A
window success continues with the next checkpoint; an exhausted window
returns `error_type = 2` with the "all 5 frames around checkpoint ... failed"
entry (line 81) after releasing the handle; a caught exception returns
`error_type = 2` with the "exception caught: ..." entry (line 87), the
handle released by `finally`. -/
def runPoints (b : Backend) (n : Nat) (pts : List (Nat × Nat))
    (log : List String) (att : List Nat) : POutcome :=
  match pts with
  | [] => .ret 0 log true att
  | (i, point) :: rest =>
    match checkWindow b i (framesToCheck n point) log att with
    | .success log2 att2 => runPoints b n rest log2 att2
    | .exhausted log2 att2 =>
        .ret 2 (log2 ++ ["检测点" ++ toString point ++ "周围5帧全部失败"]) true att2
    | .raised msg log2 att2 =>
        .ret 2 (log2 ++ ["异常捕获：" ++ msg]) true att2

/-- Source lines 25-91, `analyze_video`.  Branches in source order:
* if `cv2.VideoCapture(video_path)` itself raises, the `except` block
  catches the backend exception, but the `finally` block then evaluates
  `cap.release()` with the local `cap` never bound, so the function aborts
  with `UnboundLocalError` instead of returning (no handle exists to
  release);
* `cap.isOpened()` false: return `(1, ["打开：失败"])` — line 33-36;
* non-positive frame count: return `(2, [.., "获取总帧数失败"])` — line 41-45;
* otherwise run the checkpoint loop on `enumerate(check_points)`. -/
def analyze_video (b : Backend) : POutcome :=
  if b.openRaises then .exc "UnboundLocalError" []
  else if !b.isOpened then .ret 1 ["打开：失败"] true []
  else if b.frameCount ≤ 0 then .ret 2 ["打开：成功", "获取总帧数失败"] true []
  else runPoints b b.frameCount.toNat (checkPoints b.frameCount.toNat).enum ["打开：成功"] []

/-- The `error_type` component of a normal return of `analyze_video`
(`none` when the call propagated an exception). -/
def resultError : POutcome → Option Nat
  | .ret e _ _ _ => some e
  | .exc _ _ => none

/-- ASCII whitespace stripped by Python's `str.strip()` (the Unicode
whitespace code points Python also strips play no role for the paths
considered here and are not modelled). -/
def pyIsSpace (c : Char) : Bool :=
  c = ' ' || c = '\t' || c = '\n' || c = '\r' || c = '\x0b' || c = '\x0c'

/-- Python `str.strip()`: drop leading and trailing whitespace. -/
def pyStrip (l : List Char) : List Char :=
  ((l.dropWhile pyIsSpace).reverse.dropWhile pyIsSpace).reverse

/-- Iterating a Python text-mode file by lines, on content `chars` with
accumulator `acc` (the current line read so far, reversed).  Universal
newlines: `\r\n`, `\r` and `\n` all end a line and are translated to `\n`;
a final fragment with no newline is still yielded; empty content yields no
lines. -/
def pyLinesAux (content : List Char) (acc : List Char) : List (List Char) :=
  match content with
  | [] => if acc = [] then [] else [acc.reverse]
  | '\r' :: '\n' :: rest => (acc.reverse ++ ['\n']) :: pyLinesAux rest []
  | '\r' :: rest => (acc.reverse ++ ['\n']) :: pyLinesAux rest []
  | '\n' :: rest => (acc.reverse ++ ['\n']) :: pyLinesAux rest []
  | c :: rest => pyLinesAux rest (c :: acc)

/-- The lines of a Python text-mode file whose content is `content`. -/
def pyLines (content : List Char) : List (List Char) := pyLinesAux content []

/-- Source lines 93-97, `save_progress`: the content written to the progress
file — `f"{path}\n"` for each processed path in turn. -/
def save_progress (processed_files : List String) : List Char :=
  processed_files.flatMap (fun path => path.data ++ ['\n'])

/-- Source line 104: `set(line.strip() for line in f)` — the stripped lines
of a progress file's content.  The Python `set` is modelled by the list of
its members (duplicates immaterial for every use, which is membership). -/
def parseProgress (content : List Char) : List String :=
  (pyLines content).map (fun l => (pyStrip l).asString)

/-- A flat-file store: file name to content, `none` when absent. -/
def Store := String → Option (List Char)

/-- Source lines 99-105, `load_progress`: empty set when the progress file
does not exist, else its stripped lines. -/
def load_progress (store : Store) (progress_file : String) : List String :=
  match store progress_file with
  | none => []
  | some content => parseProgress content

/-- Source line 21: does a file name carry a recognized video extension?
`file.lower().endswith(ext)` — lower-casing per character and suffix test,
carried out on the character lists. -/
def isVideoName (file : String) : Bool :=
  [".mp4", ".avi", ".mov", ".mkv", ".flv", ".wmv", ".webm",
   ".m4v", ".mpeg", ".mpg", ".3gp", ".ts", ".mts", ".m2ts",
   ".vob", ".ogv", ".drc", ".mxf", ".rmvb", ".swf", ".divx"].any
    (fun ext => ext.data.isSuffixOf (file.data.map Char.toLower))

/-- The `os.walk` primitive (Python stdlib, external to the repository):
for a directory path, the `(dirpath, filenames)` pairs it yields, in yield
order (the `dirs` component is unused by the source).  With the default
`onerror=None`, `os.walk` of a path that does not exist or is not a
directory yields no pairs at all — that case is the hypothesis
`walk directory = []` in the theorems below. -/
def Walk := String → List (String × List String)

/-- Source lines 16-23, `get_video_files`: every walked file whose name has
a video extension, as `os.path.join(root, file)`. -/
def get_video_files (walk : Walk) (directory : String) : List String :=
  (walk directory).flatMap (fun rf =>
    rf.2.filterMap (fun file =>
      if isVideoName file then some (rf.1 ++ "/" ++ file) else none))

/-- Source line 117: `f".{args.output}_progress_{timestamp}.txt"` — the
progress-file name, built from the `--output` prefix and the *current*
run's timestamp. -/
def progressFileName (output timestamp : String) : String :=
  "." ++ output ++ "_progress_" ++ timestamp ++ ".txt"

/-- The observables of one `main` run needed by the claims. -/
structure RunResult where
  exitCode : Nat
  probed : List String
  reportCreated : Bool
  progressEverWritten : Bool
deriving DecidableEq

/-- Source lines 107-166, `main`, with its collaborators explicit:
`walk` the filesystem walker, `store` the flat-file store read at startup,
`timestamp` the value of `datetime.now().strftime(..)` at line 115,
`probeError` the `error_type` that `analyze_video` returns for each path.

* line 120: the progress set is loaded from the file named with the
  *current* timestamp;
* line 124-125: under `--resume`, already-processed paths are filtered out;
* the loop probes exactly the filtered list, in order; a report line is
  written iff some probed file has `error_type != 0` (lines 154-158); the
  progress file is written iff at least one file is processed (line 138);
* `exitCode = 0`: `main` has no abort path — no `sys.exit` or uncaught
  raise occurs after argument parsing (the division at line 142 runs only
  inside the loop, where `total_files ≥ 1`). -/
def main (walk : Walk) (store : Store)
    (directory output timestamp : String) (resume : Bool)
    (probeError : String → Nat) : RunResult :=
  let progress_file := progressFileName output timestamp
  let processed_files := load_progress store progress_file
  let video_files := get_video_files walk directory
  let video_files :=
    if resume then video_files.filter (fun f => !processed_files.contains f)
    else video_files
  { exitCode := 0
    probed := video_files
    reportCreated := video_files.any (fun f => probeError f != 0)
    progressEverWritten := !video_files.isEmpty }

/-- One persistence-relevant event of `main`'s loop: a `save_progress` call
(recording the processed set passed to it) or the start of one file's
`analyze_video` call. -/
inductive Ev where
  | save (record : List String)
  | probe (path : String)
deriving DecidableEq

/-- Source lines 135-146: each iteration adds the file to the processed set,
saves, and only then probes it. -/
def runTrace (files processed : List String) : List Ev :=
  match files with
  | [] => []
  | f :: rest =>
      .save (processed ++ [f]) :: .probe f :: runTrace rest (processed ++ [f])

/-- The event trace of a fresh (non-resumed) run of `main`'s loop over
`files`. -/
def mainTrace (files : List String) : List Ev := runTrace files []

/-- The processed set held by durable storage after a prefix of the trace,
starting from `init` (the record of the last `save` event, `init` when none
occurred yet). -/
def persistedFrom (init : List String) (t : List Ev) : List String :=
  t.foldl (fun acc e => match e with | .save r => r | .probe _ => acc) init

/-- Durable progress record after a trace prefix of a fresh run (no
progress file before the first save). -/
def persistedAfter (t : List Ev) : List String := persistedFrom [] t

theorem checkWindow_steps (b : Backend) (i : Nat) :
    ∀ (pre rest : List Nat) (log : List String) (att : List Nat),
    (∀ g ∈ pre, b.readExc g = none ∧ b.readOk g = false) →
    checkWindow b i (pre ++ rest) log att =
      checkWindow b i rest
        (log ++ pre.map (fun g => attemptLabel i g ++ "：失败")) (att ++ pre) := by
  intro pre
  induction pre with
  | nil => intro rest log att _; simp
  | cons g pre ih =>
    intro rest log att h
    have hg := h g (List.mem_cons_self g pre)
    have hrest : ∀ x ∈ pre, b.readExc x = none ∧ b.readOk x = false :=
      fun x hx => h x (List.mem_cons_of_mem g hx)
    have e1 : checkWindow b i ((g :: pre) ++ rest) log att =
        checkWindow b i (pre ++ rest) (log ++ [attemptLabel i g ++ "：失败"]) (att ++ [g]) := by
      simp [checkWindow, hg.1, hg.2]
    rw [e1, ih rest _ _ hrest]
    simp [List.append_assoc]

theorem checkWindow_success_head (b : Backend) (i f : Nat) (post : List Nat)
    (log : List String) (att : List Nat)
    (h1 : b.readExc f = none) (h2 : b.readOk f = true) :
    checkWindow b i (f :: post) log att =
      .success (log ++ [attemptLabel i f ++ "：成功"]) (att ++ [f]) := by
  simp [checkWindow, h1, h2]

theorem checkWindow_exhausted (b : Backend) (i : Nat) (frames : List Nat)
    (log : List String) (att : List Nat)
    (h : ∀ g ∈ frames, b.readExc g = none ∧ b.readOk g = false) :
    checkWindow b i frames log att =
      .exhausted (log ++ frames.map (fun g => attemptLabel i g ++ "：失败"))
        (att ++ frames) := by
  have := checkWindow_steps b i frames [] log att h
  rw [List.append_nil] at this
  rw [this]
  simp [checkWindow]

theorem checkWindow_success_of_mem (b : Backend) (i : Nat) :
    ∀ (frames : List Nat) (log : List String) (att : List Nat),
    (∀ g ∈ frames, b.readExc g = none) →
    (∃ f ∈ frames, b.readOk f = true) →
    ∃ log2 att2, checkWindow b i frames log att = .success log2 att2 := by
  intro frames
  induction frames with
  | nil => intro log att _ h; simp at h
  | cons g frames ih =>
    intro log att hexc hex
    have hge := hexc g (List.mem_cons_self g frames)
    by_cases hok : b.readOk g = true
    · exact ⟨_, _, checkWindow_success_head b i g frames log att hge hok⟩
    · have hok' : b.readOk g = false := by revert hok; cases b.readOk g <;> simp
      simp only [checkWindow, hge, hok', if_neg, Bool.false_eq_true, not_false_iff]
      apply ih
      · exact fun x hx => hexc x (List.mem_cons_of_mem g hx)
      · obtain ⟨f, hf, hfo⟩ := hex
        rcases List.mem_cons.mp hf with rfl | hf'
        · exact absurd hfo (by simp [hok'])
        · exact ⟨f, hf', hfo⟩

theorem runPoints_ok (b : Backend) (n : Nat) :
    ∀ (pts : List (Nat × Nat)) (log : List String) (att : List Nat),
    (∀ g, b.readExc g = none) →
    (∀ ip ∈ pts, ∃ f ∈ framesToCheck n ip.2, b.readOk f = true) →
    ∃ log2 att2, runPoints b n pts log att = .ret 0 log2 true att2 := by
  intro pts
  induction pts with
  | nil => intro log att _ _; exact ⟨log, att, rfl⟩
  | cons ip rest ih =>
    intro log att hexc hpts
    obtain ⟨i, point⟩ := ip
    obtain ⟨log2, att2, hcw⟩ :=
      checkWindow_success_of_mem b i (framesToCheck n point) log att
        (fun g _ => hexc g) (hpts (i, point) (List.mem_cons_self _ _))
    simp only [runPoints, hcw]
    exact ih log2 att2 hexc (fun q hq => hpts q (List.mem_cons_of_mem _ hq))

/-- Claim C4 (code bug): if the decode backend's open call
(`cv2.VideoCapture`) itself raises, `analyze_video` does not return a
classification: the `finally` block evaluates `cap.release()` with `cap`
unbound and the probe aborts with `UnboundLocalError` (first two
conjuncts).  By contrast an exception raised at a decode call after a
successful open is caught and reclassified as `DecodeFailure` (= 2) with
its description appended to the log and the handle released, as the claim
states (third conjunct). -/
theorem c4_open_exception_aborts_probe :
    analyze_video ⟨true, true, 10, fun _ => true, fun _ => none⟩ =
      .exc "UnboundLocalError" [] ∧
    resultError (analyze_video ⟨true, true, 10, fun _ => true, fun _ => none⟩) = none ∧
    analyze_video ⟨false, true, 10, fun _ => false,
        fun f => if f = 0 then some "boom" else none⟩ =
      .ret 2 ["打开：成功", "异常捕获：boom"] true [0] := by
  refine ⟨rfl, rfl, ?_⟩
  decide

/-- Claim C5: for every `totalFrames > 0` the checkpoint sequence is
strictly ascending, duplicate-free, and every checkpoint lies in
`[0, totalFrames)` (the lower bound is automatic in `ℕ`). -/
theorem c5_checkpoints_sorted_nodup_bounded (n : Nat) (hn : 0 < n) :
    (checkPoints n).Sorted (· < ·) ∧ (checkPoints n).Nodup ∧
      ∀ x ∈ checkPoints n, x < n :=
  ⟨checkPoints_sorted n, checkPoints_nodup n, fun _ hx => checkPoints_lt hn hx⟩

/-- Witness for C5 at `totalFrames = 10`. -/
theorem c5_witness :
    (checkPoints 10).Sorted (· < ·) ∧ (checkPoints 10).Nodup ∧
      ∀ x ∈ checkPoints 10, x < 10 :=
  c5_checkpoints_sorted_nodup_bounded 10 (by decide)

/-- Claim C6: the frame window is `[0, min(5, totalFrames))` for checkpoint
`0`, `[max(0, totalFrames-5), totalFrames)` for checkpoint
`totalFrames - 1`, and `[max(0, checkpoint-2), min(checkpoint+3,
totalFrames))` otherwise (bounds stated over ℤ, mirroring the claim's
`max(0, ·)`); and concretely for `totalFrames = 10` checkpoint `0` yields
`[0,5)`, checkpoint `9` yields `[5,10)`, checkpoint `5` yields `[3,8)`. -/
theorem c6_window_policy (n point : Nat) (hn : 0 < n) :
    ((point = 0 → ∀ x : Nat, x ∈ framesToCheck n point ↔ x < min 5 n) ∧
     (point = n - 1 → point ≠ 0 → ∀ x : Nat, x ∈ framesToCheck n point ↔
        max 0 ((n : Int) - 5) ≤ (x : Int) ∧ (x : Int) < (n : Int)) ∧
     (point ≠ 0 → point ≠ n - 1 → ∀ x : Nat, x ∈ framesToCheck n point ↔
        max 0 ((point : Int) - 2) ≤ (x : Int) ∧
          (x : Int) < min ((point : Int) + 3) (n : Int))) ∧
    framesToCheck 10 0 = [0, 1, 2, 3, 4] ∧
    framesToCheck 10 9 = [5, 6, 7, 8, 9] ∧
    framesToCheck 10 5 = [3, 4, 5, 6, 7] := by
  refine ⟨⟨?_, ?_, ?_⟩, by decide, by decide, by decide⟩
  · intro h0 x
    subst h0
    simp only [framesToCheck, if_pos, mem_pyRange, lt_min_iff, if_true,
      eq_self_iff_true]
    omega
  · intro hl h0 x
    simp only [framesToCheck, if_neg h0, if_pos hl, mem_pyRange, max_le_iff]
    constructor
    · rintro ⟨h1, h2⟩; refine ⟨⟨?_, ?_⟩, ?_⟩ <;> omega
    · rintro ⟨⟨g0, g1⟩, g2⟩; exact ⟨by omega, by omega⟩
  · intro h0 hl x
    simp only [framesToCheck, if_neg h0, if_neg hl, mem_pyRange, max_le_iff,
      lt_min_iff]
    constructor
    · rintro ⟨h1, h2⟩; refine ⟨⟨?_, ?_⟩, ?_, ?_⟩ <;> omega
    · rintro ⟨⟨g0, g1⟩, g2, g3⟩; exact ⟨by omega, by omega⟩

/-- Witness for C6 at `totalFrames = 10`, checkpoint `5`. -/
theorem c6_witness :
    ((5 = 0 → ∀ x : Nat, x ∈ framesToCheck 10 5 ↔ x < min 5 10) ∧
     (5 = 10 - 1 → 5 ≠ 0 → ∀ x : Nat, x ∈ framesToCheck 10 5 ↔
        max 0 ((10 : Int) - 5) ≤ (x : Int) ∧ (x : Int) < (10 : Int)) ∧
     ((5 : Nat) ≠ 0 → (5 : Nat) ≠ 10 - 1 → ∀ x : Nat, x ∈ framesToCheck 10 5 ↔
        max 0 ((5 : Int) - 2) ≤ (x : Int) ∧
          (x : Int) < min ((5 : Int) + 3) (10 : Int))) ∧
    framesToCheck 10 0 = [0, 1, 2, 3, 4] ∧
    framesToCheck 10 9 = [5, 6, 7, 8, 9] ∧
    framesToCheck 10 5 = [3, 4, 5, 6, 7] :=
  c6_window_policy 10 5 (by decide)

/-- Claim C7: if the frames of a checkpoint's window split as
`pre ++ f :: post` where every frame of `pre` fails to decode (without
raising) and `f` decodes successfully, then the probe attempts exactly
`pre ++ [f]` — nothing of `post` — appends exactly one success entry after
the failure entries of `pre`, and continues with the remaining checkpoints
(`rest`).  With `pre = []` the window contributes exactly one step-log
entry. -/
theorem c7_early_exit (b : Backend) (n i point : Nat) (rest : List (Nat × Nat))
    (pre post : List Nat) (f : Nat) (log : List String) (att : List Nat)
    (hw : framesToCheck n point = pre ++ f :: post)
    (hpre : ∀ g ∈ pre, b.readExc g = none ∧ b.readOk g = false)
    (hfe : b.readExc f = none) (hfo : b.readOk f = true) :
    runPoints b n ((i, point) :: rest) log att =
      runPoints b n rest
        (log ++ pre.map (fun g => attemptLabel i g ++ "：失败")
             ++ [attemptLabel i f ++ "：成功"])
        (att ++ pre ++ [f]) := by
  simp only [runPoints, hw, checkWindow_steps b i pre (f :: post) log att hpre,
    checkWindow_success_head b i f post _ _ hfe hfo]

/-- Witness for C7: `totalFrames = 10`, checkpoint `5` (window
`[3,4,5,6,7]`), first frame `3` decodes successfully: the window contributes
exactly one attempt entry and no further frame of the window is touched. -/
theorem c7_witness :
    runPoints ⟨false, true, 10, fun _ => true, fun _ => none⟩ 10 [(3, 5)] [] [] =
      runPoints ⟨false, true, 10, fun _ => true, fun _ => none⟩ 10 []
        ([] ++ List.map (fun g => attemptLabel 3 g ++ "：失败") []
            ++ [attemptLabel 3 3 ++ "：成功"])
        ([] ++ [] ++ [3]) :=
  c7_early_exit ⟨false, true, 10, fun _ => true, fun _ => none⟩ 10 3 5 [] [] [4, 5, 6, 7] 3 [] []
    (by decide) (by decide) rfl rfl

/-- Claim C8: a checkpoint whose whole window fails to decode (no raise,
zero successes) makes `runPoints` return `error_type = 2`
(`DecodeFailure`) with the "all 5 frames around checkpoint ... failed"
entry appended after the window's failure entries, having attempted exactly
that window — for *every* `rest`, so no later checkpoint is examined. -/
theorem c8_window_exhaustion_stops (b : Backend) (n i point : Nat)
    (rest : List (Nat × Nat)) (log : List String) (att : List Nat)
    (hall : ∀ g ∈ framesToCheck n point, b.readExc g = none ∧ b.readOk g = false) :
    runPoints b n ((i, point) :: rest) log att =
      .ret 2 (log ++ (framesToCheck n point).map (fun g => attemptLabel i g ++ "：失败")
                  ++ ["检测点" ++ toString point ++ "周围5帧全部失败"])
        true (att ++ framesToCheck n point) := by
  simp only [runPoints, checkWindow_exhausted b i (framesToCheck n point) log att hall]

/-- Witness for C8: all five frames of checkpoint `5`'s window fail; the
result is `DecodeFailure` with the exhaustion entry even though a later
checkpoint `(4, 6)` was pending. -/
theorem c8_witness :
    runPoints ⟨false, true, 10, fun _ => false, fun _ => none⟩ 10 [(3, 5), (4, 6)] [] [] =
      .ret 2 ([] ++ (framesToCheck 10 5).map (fun g => attemptLabel 3 g ++ "：失败")
                 ++ ["检测点" ++ toString 5 ++ "周围5帧全部失败"])
        true ([] ++ framesToCheck 10 5) :=
  c8_window_exhaustion_stops ⟨false, true, 10, fun _ => false, fun _ => none⟩ 10 3 5 [(4, 6)] [] []
    (by decide)

/-- Claim C9: a file whose open call fails (without raising) is classified
`OpenFailure` (= 1) with step log exactly `["打开：失败"]` — the source's
"open: failed" entry — and zero frames attempted; and a file that opens,
reports a positive frame count, raises no decode exception, and has at
least one decodable frame in every checkpoint's window is classified
`OK` (= 0). -/
theorem c9_classification_determinism (b1 b2 : Backend)
    (h1r : b1.openRaises = false) (h1o : b1.isOpened = false)
    (h2r : b2.openRaises = false) (h2o : b2.isOpened = true)
    (h2n : 0 < b2.frameCount)
    (h2e : ∀ f, b2.readExc f = none)
    (h2s : ∀ p ∈ checkPoints b2.frameCount.toNat,
        ∃ f ∈ framesToCheck b2.frameCount.toNat p, b2.readOk f = true) :
    analyze_video b1 = .ret 1 ["打开：失败"] true [] ∧
      resultError (analyze_video b2) = some 0 := by
  constructor
  · simp [analyze_video, h1r, h1o]
  · have hfc : ¬ b2.frameCount ≤ 0 := by omega
    obtain ⟨log2, att2, hrun⟩ :=
      runPoints_ok b2 b2.frameCount.toNat (checkPoints b2.frameCount.toNat).enum
        ["打开：成功"] [] h2e
        (fun ip hip => h2s ip.2
          (List.getElem?_mem (List.mem_enum_iff_getElem?.mp hip)))
    simp [analyze_video, h2r, h2o, hfc, hrun, resultError]

/-- Witness for C9: `b1` fails to open; `b2` opens with 10 frames, every
frame decodable. -/
theorem c9_witness :
    analyze_video ⟨false, false, 0, fun _ => false, fun _ => none⟩ =
      .ret 1 ["打开：失败"] true [] ∧
    resultError (analyze_video ⟨false, true, 10, fun _ => true, fun _ => none⟩) = some 0 :=
  c9_classification_determinism
    ⟨false, false, 0, fun _ => false, fun _ => none⟩
    ⟨false, true, 10, fun _ => true, fun _ => none⟩
    rfl rfl rfl rfl (by decide) (fun _ => rfl) (by decide)

theorem persisted_take_even :
    ∀ (k : Nat) (files processed init : List String), k ≤ files.length →
    persistedFrom init ((runTrace files processed).take (2 * k)) =
      if k = 0 then init else processed ++ files.take k := by
  intro k
  induction k with
  | zero => intro files processed init _; simp [persistedFrom]
  | succ k ih =>
    intro files processed init h
    match files with
    | [] => simp at h
    | f :: rest =>
      have h' : k ≤ rest.length := by simp at h; omega
      have e : 2 * (k + 1) = 2 * k + 1 + 1 := by ring
      rw [runTrace, e, List.take_succ_cons, List.take_succ_cons]
      have estep : persistedFrom init
          (Ev.save (processed ++ [f]) :: Ev.probe f ::
            ((runTrace rest (processed ++ [f])).take (2 * k))) =
          persistedFrom (processed ++ [f])
            ((runTrace rest (processed ++ [f])).take (2 * k)) := rfl
      rw [estep, ih rest (processed ++ [f]) (processed ++ [f]) h']
      by_cases hk : k = 0
      · subst hk; simp
      · rw [if_neg hk, if_neg (Nat.succ_ne_zero k)]
        simp [List.take_succ_cons]

theorem persisted_take_odd :
    ∀ (k : Nat) (files processed init : List String), k < files.length →
    persistedFrom init ((runTrace files processed).take (2 * k + 1)) =
      processed ++ files.take (k + 1) := by
  intro k
  induction k with
  | zero =>
    intro files processed init h
    match files with
    | [] => simp at h
    | f :: rest => simp [runTrace, persistedFrom]
  | succ k ih =>
    intro files processed init h
    match files with
    | [] => simp at h
    | f :: rest =>
      have h' : k < rest.length := by simp at h; omega
      have e : 2 * (k + 1) + 1 = 2 * k + 1 + 1 + 1 := by ring
      rw [runTrace, e, List.take_succ_cons, List.take_succ_cons]
      have estep : persistedFrom init
          (Ev.save (processed ++ [f]) :: Ev.probe f ::
            ((runTrace rest (processed ++ [f])).take (2 * k + 1))) =
          persistedFrom (processed ++ [f])
            ((runTrace rest (processed ++ [f])).take (2 * k + 1)) := rfl
      rw [estep, ih rest (processed ++ [f]) (processed ++ [f]) h']
      simp [List.take_succ_cons]

/-- Counterexample to claim C2 as stated: it is not true that at *every*
point after the probe of file `k` completes and before the probe of file
`k+1` begins (trace-prefix lengths `L` with `2k ≤ L ≤ 2k+1`) the persisted
record equals the set of the first `k` paths.  On `files = ["a","b"]`,
`k = 1`, at the prefix of length 3 — after the save that starts iteration
2 and immediately before the probe of file 2 — the record is
`{"a","b"}`, not `{"a"}`. -/
theorem c2_counterexample :
    ¬ (∀ (files : List String) (k L : Nat), 1 ≤ k → k < files.length →
        2 * k ≤ L → L ≤ 2 * k + 1 →
        (persistedAfter ((mainTrace files).take L)).toFinset =
          (files.take k).toFinset) := by
  intro h
  have := h ["a", "b"] 1 3 (by decide) (by decide) (by decide) (by decide)
  revert this
  decide

/-- Claim C2 (amended): the loop marks and persists the in-flight file
*before* probing it (source lines 137-138 precede line 146).  Hence after
the probe of file `k` completes and before file `k+1` is marked (prefix
length `2k`) the persisted record is exactly the first `k` paths, and from
the save of iteration `k+1` until the probe of file `k+1` begins (prefix
length `2k+1`) it is exactly the first `k+1` paths — the in-flight file is
persisted before, not after, its probe completes. -/
theorem c2_write_through_marks_before_probe (files : List String) (k : Nat)
    (h1 : 1 ≤ k) (h2 : k < files.length) :
    (persistedAfter ((mainTrace files).take (2 * k))).toFinset =
      (files.take k).toFinset ∧
    (persistedAfter ((mainTrace files).take (2 * k + 1))).toFinset =
      (files.take (k + 1)).toFinset := by
  constructor
  · rw [persistedAfter, mainTrace,
      persisted_take_even k files [] [] (le_of_lt h2), if_neg (by omega)]
    simp
  · rw [persistedAfter, mainTrace, persisted_take_odd k files [] [] h2]
    simp

/-- Witness for the amended C2 on `files = ["a","b"]`, `k = 1`. -/
theorem c2_witness :
    (persistedAfter ((mainTrace ["a", "b"]).take (2 * 1))).toFinset =
      ((["a", "b"] : List String).take 1).toFinset ∧
    (persistedAfter ((mainTrace ["a", "b"]).take (2 * 1 + 1))).toFinset =
      ((["a", "b"] : List String).take (1 + 1)).toFinset :=
  c2_write_through_marks_before_probe ["a", "b"] 1 (by decide) (by decide)

/-- Counterexample to claim C3 as stated: a root for which `os.walk`
yields nothing (a path that does not exist or is not a directory) does
*not* make the run exit with a non-zero status — `main` has no abort path
and returns normally. -/
theorem c3_counterexample :
    ¬ (∀ (walk : Walk) (store : Store) (directory output timestamp : String)
        (resume : Bool) (probeError : String → Nat), walk directory = [] →
        (main walk store directory output timestamp resume probeError).exitCode ≠ 0) := by
  intro h
  exact h (fun _ => []) (fun _ => none) "/missing" "video_report"
    "20250101-120000" false (fun _ => 0) rfl rfl

/-- Claim C3 (amended): for every root path for which `os.walk` yields
nothing — in particular one that does not exist or is not a directory —
the run probes no file, creates neither a report file nor a progress file,
and exits with status `0`: the missing directory is treated as an empty
candidate set, not as a fatal error. -/
theorem c3_missing_root_runs_empty (walk : Walk) (store : Store)
    (directory output timestamp : String) (resume : Bool)
    (probeError : String → Nat) (h : walk directory = []) :
    main walk store directory output timestamp resume probeError =
      ⟨0, [], false, false⟩ := by
  unfold main get_video_files
  rw [h]
  cases resume <;> simp

/-- Witness for the amended C3. -/
theorem c3_witness :
    main (fun _ => []) (fun _ => none) "/missing" "video_report"
        "20250101-120000" true (fun _ => 0) = ⟨0, [], false, false⟩ :=
  c3_missing_root_runs_empty _ _ _ _ _ _ _ rfl

/-- Claim C1 (code bug): the progress file is named with the *current*
run's timestamp (source line 117), so a resumed run never reads a prior
session's record.  Concretely: the prior session (timestamp
`20250101-120000`) durably recorded `{A, B}` processed — the store holds
exactly that record, and reading it back yields `{A, B}` (first
conjunct) — yet the resumed run at timestamp `20250101-130000` over the
discovered candidates `{A, B, C, D}` probes all of `A, B, C, D` (second
conjunct) instead of exactly `{C, D}` as the claim states: it loaded the
(nonexistent) file named with its own fresh timestamp and got the empty
set. -/
theorem c1_resume_ignores_prior_progress :
    load_progress
        (fun nm => if nm = progressFileName "video_report" "20250101-120000"
          then some (save_progress ["/m/a.mp4", "/m/b.mp4"]) else none)
        (progressFileName "video_report" "20250101-120000")
      = ["/m/a.mp4", "/m/b.mp4"] ∧
    (main (fun d => if d = "/m" then [("/m", ["a.mp4", "b.mp4", "c.mp4", "d.mp4"])] else [])
        (fun nm => if nm = progressFileName "video_report" "20250101-120000"
          then some (save_progress ["/m/a.mp4", "/m/b.mp4"]) else none)
        "/m" "video_report" "20250101-130000" true (fun _ => 1)).probed
      = ["/m/a.mp4", "/m/b.mp4", "/m/c.mp4", "/m/d.mp4"] := by
  constructor
  · decide
  · decide

theorem pyLinesAux_cons_ne {c : Char} (hc1 : c ≠ '\n') (hc2 : c ≠ '\r')
    (rest acc : List Char) :
    pyLinesAux (c :: rest) acc = pyLinesAux rest (c :: acc) := by
  rw [pyLinesAux.eq_def]
  split
  · simp_all
  · simp_all
  · simp_all
  · simp_all
  · simp_all

theorem pyLinesAux_newline (rest acc : List Char) :
    pyLinesAux ('\n' :: rest) acc = (acc.reverse ++ ['\n']) :: pyLinesAux rest [] :=
  rfl

theorem pyLinesAux_line :
    ∀ (line : List Char), '\n' ∉ line → '\r' ∉ line →
    ∀ (rest acc : List Char),
    pyLinesAux (line ++ '\n' :: rest) acc =
      ((acc.reverse ++ line) ++ ['\n']) :: pyLinesAux rest [] := by
  intro line
  induction line with
  | nil => intro _ _ rest acc; simp [pyLinesAux_newline]
  | cons c cs ih =>
    intro hn hr rest acc
    have hc1 : c ≠ '\n' := fun e => hn (e ▸ List.mem_cons_self c cs)
    have hc2 : c ≠ '\r' := fun e => hr (e ▸ List.mem_cons_self c cs)
    rw [List.cons_append, pyLinesAux_cons_ne hc1 hc2,
      ih (fun m => hn (List.mem_cons_of_mem c m))
        (fun m => hr (List.mem_cons_of_mem c m)) rest (c :: acc)]
    simp

theorem pyStrip_append_newline (l : List Char) (hne : l ≠ [])
    (hh : ∀ c, l.head? = some c → pyIsSpace c = false)
    (hl : ∀ c, l.getLast? = some c → pyIsSpace c = false) :
    pyStrip (l ++ ['\n']) = l := by
  match l, hne with
  | c :: cs, _ =>
    have hcws : pyIsSpace c = false := hh c rfl
    unfold pyStrip
    rw [List.cons_append, List.dropWhile_cons, hcws]
    simp only [Bool.false_eq_true, if_false]
    rw [show (c :: (cs ++ ['\n'])).reverse = '\n' :: (c :: cs).reverse by simp,
      List.dropWhile_cons]
    simp only [show pyIsSpace '\n' = true from rfl, if_true]
    have hrev : (c :: cs).reverse ≠ [] := by simp
    match hR : (c :: cs).reverse, hrev with
    | z :: t, _ =>
      have hz : (c :: cs).getLast? = some z := by
        rw [← List.head?_reverse, hR]; rfl
      rw [List.dropWhile_cons, hl z hz]
      simp only [Bool.false_eq_true, if_false]
      rw [← hR, List.reverse_reverse]

theorem parseProgress_save_progress (ps : List String)
    (hp : ∀ p ∈ ps, p.data ≠ [] ∧ '\n' ∉ p.data ∧ '\r' ∉ p.data ∧
      p.data.head?.all (fun c => !pyIsSpace c) = true ∧
      p.data.getLast?.all (fun c => !pyIsSpace c) = true) :
    parseProgress (save_progress ps) = ps := by
  induction ps with
  | nil => rfl
  | cons p ps ih =>
    have hpp := hp p (List.mem_cons_self p ps)
    have hsave : save_progress (p :: ps) = p.data ++ '\n' :: save_progress ps := by
      simp [save_progress]
    rw [hsave]
    unfold parseProgress pyLines
    rw [pyLinesAux_line p.data hpp.2.1 hpp.2.2.1 (save_progress ps) []]
    simp only [List.map_cons, List.reverse_nil, List.nil_append]
    have hh : ∀ c, p.data.head? = some c → pyIsSpace c = false := by
      intro c hc
      have := hpp.2.2.2.1
      rw [hc] at this
      simpa using this
    have hl : ∀ c, p.data.getLast? = some c → pyIsSpace c = false := by
      intro c hc
      have := hpp.2.2.2.2
      rw [hc] at this
      simpa using this
    rw [pyStrip_append_newline p.data hpp.1 hh hl]
    have hps : parseProgress (save_progress ps) = ps :=
      ih (fun q hq => hp q (List.mem_cons_of_mem p hq))
    unfold parseProgress pyLines at hps
    rw [hps]
    have : (p.data).asString = p := by cases p; rfl
    rw [this]

/-- Claim C10: saving a set of paths and immediately loading the progress
file back is the identity, provided each path is non-empty, contains no
newline character (`\n` or `\r` — both end a line under Python's
universal-newline text mode), and has no leading or trailing whitespace.
The equality is at the level of the member list, which implies equality of
the resulting sets. -/
theorem c10_save_load_roundtrip (ps : List String) (progress_file : String)
    (store : Store) (hs : store progress_file = some (save_progress ps))
    (hp : ∀ p ∈ ps, p.data ≠ [] ∧ '\n' ∉ p.data ∧ '\r' ∉ p.data ∧
      p.data.head?.all (fun c => !pyIsSpace c) = true ∧
      p.data.getLast?.all (fun c => !pyIsSpace c) = true) :
    load_progress store progress_file = ps := by
  unfold load_progress
  rw [hs]
  exact parseProgress_save_progress ps hp

/-- Witness for C10 on two concrete paths (one containing an interior
space). -/
theorem c10_witness :
    load_progress (fun _ => some (save_progress ["/m/a.mp4", "b c.mkv"]))
      ".video_report_progress_t.txt" = ["/m/a.mp4", "b c.mkv"] :=
  c10_save_load_roundtrip ["/m/a.mp4", "b c.mkv"] ".video_report_progress_t.txt"
    (fun _ => some (save_progress ["/m/a.mp4", "b c.mkv"])) rfl (by decide)

end MediaChecker
